import Mathlib

/-
  Shallow embedding of the CuckooUTXO repository.

  Primary model: the `UTXOManager` class of src/Perfect_Cuckoo_Filter.cpp
  (fixed construction parameters NUM_BUCKETS = 2^19, BUCKET_SIZE = 4,
  MAX_RELOCATIONS = 500, FINGERPRINT_BITS = 13).  The near-duplicate
  implementations in src/computational_Time_CuckooUTXO.cpp and src/rst2.cpp
  share the same structure; the parameterized constructor of src/rst2.cpp is
  modelled separately in namespace RST2.

  Modelling conventions:
  - machine integers (uint32_t) become Nat with explicit masking; every
    CRC step and hash-derived quantity stays below 2^32, and the one place
    where 32-bit multiplication can overflow (fingerprint * 0xCC9E2D51) is
    reduced mod 2^32 explicitly before the 19-bit mask is applied;
  - the bucket array `vector<vector<BucketEntry>> buckets` becomes an
    association list from bucket index to bucket contents with default [],
    written only through `setB`; all buckets start empty, exactly as in the
    C++ constructor;
  - the process-wide `rand()` source becomes an explicit oracle
    `rnd : Nat -> Nat`, sampled at the current fuel value (distinct per
    eviction step of one walk) and reduced mod the bucket size exactly as
    `rand() % buckets[alt_bucket].size()` is;
  - `relocate` recurses with `depth + 1` and stops when
    `depth > MAX_RELOCATIONS`; the walk from depth d therefore performs at
    most MAX_RELOCATIONS + 1 - d working calls, which is embedded as a
    structurally decreasing fuel argument, started at MAX_RELOCATIONS + 1
    where the C++ passes depth 0.  Fuel 0 is exactly the depth > 500 check;
  - C++ iterates the bytes of std::string; keys used here are ASCII, and a
    character is mapped to its code point mod 256 as static_cast<uint8_t>.
-/

namespace PCF

/-- Stored value, struct UTXOValue of src/Perfect_Cuckoo_Filter.cpp. -/
structure UTXOValue where
  coinbase : Bool
  height : Nat
  amount : Nat
  script : String
  address : String
deriving DecidableEq, Repr, Inhabited

/-- Slot contents, struct UTXOManager::BucketEntry. -/
structure BucketEntry where
  fingerprint : Nat
  selector_bit : Bool
  value : UTXOValue
deriving DecidableEq, Repr, Inhabited

def BUCKET_SIZE : Nat := 4

def NUM_BUCKETS : Nat := 2 ^ 19

def MAX_RELOCATIONS : Nat := 500

def FINGERPRINT_BITS : Nat := 13

/-- Table state: bucket index to bucket contents, default empty. -/
abbrev Buckets := List (Nat × List BucketEntry)

/-- Read a bucket; buckets never written are empty. -/
def getB (s : Buckets) (i : Nat) : List BucketEntry :=
  match s with
  | [] => []
  | (j, b) :: rest => if i = j then b else getB rest i

/-- Write a bucket (replace the first binding, or append a new one). -/
def setB (s : Buckets) (i : Nat) (b : List BucketEntry) : Buckets :=
  match s with
  | [] => [(i, b)]
  | (j, b0) :: rest => if i = j then (i, b) :: rest else (j, b0) :: setB rest i b

/-- One shift/XOR step of UTXOManager::crc32_hash:
    crc = (crc >> 1) ^ ((crc & 1) ? 0xEDB88320 : 0). -/
def crc32_step (crc : Nat) : Nat :=
  (crc >>> 1) ^^^ (if crc &&& 1 = 1 then 0xEDB88320 else 0)

/-- Process one byte: crc ^= byte, then 8 shift/XOR steps. -/
def crc32_byte (crc b : Nat) : Nat :=
  crc32_step (crc32_step (crc32_step (crc32_step
    (crc32_step (crc32_step (crc32_step (crc32_step (crc ^^^ b))))))))

/-- UTXOManager::crc32_hash: register starts at all-ones, one byte per
    character, final complement (XOR with 0xFFFFFFFF on 32 bits). -/
def crc32_hash (key : String) : Nat :=
  (key.data.foldl (fun crc c => crc32_byte crc (c.toNat % 256)) 0xFFFFFFFF)
    ^^^ 0xFFFFFFFF

/-- UTXOManager::get_bucket_fingerprint: low 19 bits are the bucket,
    the next 13 bits the fingerprint. -/
def get_bucket_fingerprint (key : String) : Nat × Nat :=
  let h := crc32_hash key
  (h &&& (2 ^ 19 - 1), (h >>> 19) &&& (2 ^ FINGERPRINT_BITS - 1))

/-- UTXOManager::get_alt_bucket: bucket XOR (low 19 bits of
    fingerprint * 0xCC9E2D51), the uint32 product reduced mod 2^32. -/
def get_alt_bucket (bucket fingerprint : Nat) : Nat :=
  let fp_hash := fingerprint * 0xCC9E2D51 % 2 ^ 32
  bucket ^^^ (fp_hash &&& (2 ^ 19 - 1))

/-- UTXOManager::relocate.  `fuel` stands for MAX_RELOCATIONS + 1 - depth:
    the C++ guard `depth > MAX_RELOCATIONS` is the `0` case, the recursive
    call with depth + 1 becomes the call with fuel - 1.  `rnd fuel % size`
    embeds `rand() % buckets[alt_bucket].size()`.  The two branches the C++
    uses to compute `new_bucket` are kept even though they evaluate to the
    same expression (`*` binds tighter than `&` in C++). -/
def relocate (rnd : Nat → Nat) :
    Nat → Buckets → Nat → Nat → UTXOValue → Bool × Buckets
  | 0, s, _, _, _ => (false, s)
  | fuel + 1, s, bucket, fingerprint, value =>
    let alt_bucket := get_alt_bucket bucket fingerprint
    let ab := getB s alt_bucket
    if ab.length < BUCKET_SIZE then
      (true, setB s alt_bucket (ab ++ [⟨fingerprint, true, value⟩]))
    else
      let evict_idx := rnd (fuel + 1) % ab.length
      let evicted := ab.getD evict_idx default
      let s1 := setB s alt_bucket (ab.set evict_idx ⟨fingerprint, true, value⟩)
      let new_bucket :=
        if evicted.selector_bit then
          alt_bucket ^^^ (evicted.fingerprint * 0xCC9E2D51 % 2 ^ 32 &&& (2 ^ 19 - 1))
        else
          get_alt_bucket alt_bucket evicted.fingerprint
      let nb := getB s1 new_bucket
      if nb.length < BUCKET_SIZE then
        (true, setB s1 new_bucket (nb ++ [evicted]))
      else
        relocate rnd fuel s1 new_bucket evicted.fingerprint evicted.value

/-- UTXOManager::add_utxo.  Returns the success flag together with the
    table state after the call. -/
def add_utxo (rnd : Nat → Nat) (key : String) (value : UTXOValue)
    (s : Buckets) : Bool × Buckets :=
  let bf := get_bucket_fingerprint key
  let bucket := bf.1
  let fingerprint := bf.2
  if (getB s bucket).any
      (fun e => e.fingerprint == fingerprint && e.selector_bit == false) then
    (false, s)
  else
    let alt_bucket := get_alt_bucket bucket fingerprint
    if (getB s alt_bucket).any
        (fun e => e.fingerprint == fingerprint && e.selector_bit == true) then
      (false, s)
    else if (getB s bucket).length < BUCKET_SIZE then
      (true, setB s bucket (getB s bucket ++ [⟨fingerprint, false, value⟩]))
    else if (getB s alt_bucket).length < BUCKET_SIZE then
      (true, setB s alt_bucket (getB s alt_bucket ++ [⟨fingerprint, true, value⟩]))
    else
      relocate rnd (MAX_RELOCATIONS + 1) s bucket fingerprint value

/-- Lookup core shared by get_utxo: scan the primary bucket for
    (fingerprint, selector = false), then the alternate bucket for
    (fingerprint, selector = true); first match wins. -/
def get_fp (s : Buckets) (bucket fingerprint : Nat) : Option UTXOValue :=
  match (getB s bucket).find?
      (fun e => e.fingerprint == fingerprint && e.selector_bit == false) with
  | some e => some e.value
  | none =>
    match (getB s (get_alt_bucket bucket fingerprint)).find?
        (fun e => e.fingerprint == fingerprint && e.selector_bit == true) with
    | some e => some e.value
    | none => none

/-- UTXOManager::get_utxo (returning the stored value instead of a
    pointer into the bucket). -/
def get_utxo (key : String) (s : Buckets) : Option UTXOValue :=
  let bf := get_bucket_fingerprint key
  get_fp s bf.1 bf.2

/-- Erase the first entry satisfying p, as vector::erase of the first
    matching iterator does; none when nothing matches. -/
def removeFirst (p : BucketEntry → Bool) : List BucketEntry → Option (List BucketEntry)
  | [] => none
  | e :: rest => if p e then some rest else (removeFirst p rest).map (e :: ·)

/-- UTXOManager::remove_utxo. -/
def remove_utxo (key : String) (s : Buckets) : Bool × Buckets :=
  let bf := get_bucket_fingerprint key
  let bucket := bf.1
  let fingerprint := bf.2
  match removeFirst
      (fun e => e.fingerprint == fingerprint && e.selector_bit == false)
      (getB s bucket) with
  | some l => (true, setB s bucket l)
  | none =>
    let alt_bucket := get_alt_bucket bucket fingerprint
    match removeFirst
        (fun e => e.fingerprint == fingerprint && e.selector_bit == true)
        (getB s alt_bucket) with
    | some l => (true, setB s alt_bucket l)
    | none => (false, s)

/-- UTXOManager::count: total number of stored entries. -/
def count (s : Buckets) : Nat :=
  (s.map (fun p => p.2.length)).sum

/-- States reachable from the empty table by add_utxo / remove_utxo calls,
    under arbitrary randomness oracles. -/
inductive Reachable : Buckets → Prop
  | empty : Reachable []
  | add (rnd : Nat → Nat) (k : String) (v : UTXOValue) (s : Buckets) :
      Reachable s → Reachable (add_utxo rnd k v s).2
  | remove (k : String) (s : Buckets) :
      Reachable s → Reachable (remove_utxo k s).2

/-- Randomness oracle that always picks victim slot 0, one concrete
    realization of rand(). -/
def rnd0 : Nat → Nat := fun _ => 0

/-- Shorthand for building stored values that differ in height only. -/
def mkVal (h : Nat) : UTXOValue := ⟨false, h, 0, "", ""⟩

/-- Concrete table for the failed-insert scenario: key "a" hashes to
    bucket 507459 with fingerprint 7446; bucket 372661 is its alternate,
    and 230116 is the alternate of 372661 for fingerprint 1.  All three
    buckets are full, every resident entry carries fingerprint 1, so the
    walk ping-pongs between 372661 and 230116 until the depth bound. -/
def s3 : Buckets :=
  [(507459, [⟨1, false, mkVal 10⟩, ⟨1, false, mkVal 11⟩,
             ⟨1, false, mkVal 12⟩, ⟨1, false, mkVal 13⟩]),
   (372661, [⟨1, true, mkVal 20⟩, ⟨1, true, mkVal 21⟩,
             ⟨1, true, mkVal 22⟩, ⟨1, true, mkVal 23⟩]),
   (230116, [⟨1, false, mkVal 30⟩, ⟨1, false, mkVal 31⟩,
             ⟨1, false, mkVal 32⟩, ⟨1, false, mkVal 33⟩])]

/-- Table contents after the failed insert of key "a" into s3: the walk
    ping-ponged on bucket 372661 and the depth bound fired with the
    incoming fingerprint parked in slot 0; the original slot-0 entry,
    holding the value of height 20, has been dropped. -/
def s3f : Buckets :=
  [(507459, [⟨1, false, mkVal 10⟩, ⟨1, false, mkVal 11⟩,
             ⟨1, false, mkVal 12⟩, ⟨1, false, mkVal 13⟩]),
   (372661, [⟨7446, true, mkVal 7⟩, ⟨1, true, mkVal 21⟩,
             ⟨1, true, mkVal 22⟩, ⟨1, true, mkVal 23⟩]),
   (230116, [⟨1, false, mkVal 30⟩, ⟨1, false, mkVal 31⟩,
             ⟨1, false, mkVal 32⟩, ⟨1, false, mkVal 33⟩])]

/-- Number of eviction steps performed by the relocation walk, mirroring
    the recursion of relocate frame by frame: a frame that finds room
    evicts nothing, every other frame overwrites one slot and counts 1. -/
def relocateSteps (rnd : Nat → Nat) :
    Nat → Buckets → Nat → Nat → UTXOValue → Nat
  | 0, _, _, _, _ => 0
  | fuel + 1, s, bucket, fingerprint, value =>
    let alt_bucket := get_alt_bucket bucket fingerprint
    let ab := getB s alt_bucket
    if ab.length < BUCKET_SIZE then 0
    else
      let evict_idx := rnd (fuel + 1) % ab.length
      let evicted := ab.getD evict_idx default
      let s1 := setB s alt_bucket (ab.set evict_idx ⟨fingerprint, true, value⟩)
      let new_bucket :=
        if evicted.selector_bit then
          alt_bucket ^^^ (evicted.fingerprint * 0xCC9E2D51 % 2 ^ 32 &&& (2 ^ 19 - 1))
        else
          get_alt_bucket alt_bucket evicted.fingerprint
      let nb := getB s1 new_bucket
      if nb.length < BUCKET_SIZE then 1
      else relocateSteps rnd fuel s1 new_bucket evicted.fingerprint evicted.value + 1

/-- Eviction steps performed by one add_utxo call: the duplicate-check
    and direct-placement paths perform none, the overflow path performs
    what its relocation walk performs. -/
def add_utxo_steps (rnd : Nat → Nat) (key : String) (value : UTXOValue)
    (s : Buckets) : Nat :=
  let bf := get_bucket_fingerprint key
  let bucket := bf.1
  let fingerprint := bf.2
  if (getB s bucket).any
      (fun e => e.fingerprint == fingerprint && e.selector_bit == false) then 0
  else
    let alt_bucket := get_alt_bucket bucket fingerprint
    if (getB s alt_bucket).any
        (fun e => e.fingerprint == fingerprint && e.selector_bit == true) then 0
    else if (getB s bucket).length < BUCKET_SIZE then 0
    else if (getB s alt_bucket).length < BUCKET_SIZE then 0
    else relocateSteps rnd (MAX_RELOCATIONS + 1) s bucket fingerprint value

/-- One client operation against the manager. -/
inductive Op where
  | addOp (key : String) (value : UTXOValue)
  | removeOp (key : String)

/-- The key an operation touches. -/
def opKey : Op → String
  | .addOp k _ => k
  | .removeOp k => k

/-- Run one operation, keeping the resulting table state. -/
def applyOp (rnd : Nat → Nat) (s : Buckets) : Op → Buckets
  | .addOp k v => (add_utxo rnd k v s).2
  | .removeOp k => (remove_utxo k s).2

/-- Run a sequence of operations left to right. -/
def applyOps (rnd : Nat → Nat) (ops : List Op) (s : Buckets) : Buckets :=
  ops.foldl (applyOp rnd) s

/-- An operation that will not invoke the relocation engine in state s:
    an insert whose duplicate check fires or whose primary or alternate
    bucket has room; removals never relocate. -/
def NoReloc (s : Buckets) : Op → Prop
  | .addOp k _ =>
    ((getB s (get_bucket_fingerprint k).1).any
        (fun e => e.fingerprint == (get_bucket_fingerprint k).2 &&
          e.selector_bit == false) = true) ∨
    ((getB s (get_alt_bucket (get_bucket_fingerprint k).1
          (get_bucket_fingerprint k).2)).any
        (fun e => e.fingerprint == (get_bucket_fingerprint k).2 &&
          e.selector_bit == true) = true) ∨
    (getB s (get_bucket_fingerprint k).1).length < BUCKET_SIZE ∨
    (getB s (get_alt_bucket (get_bucket_fingerprint k).1
        (get_bucket_fingerprint k).2)).length < BUCKET_SIZE
  | .removeOp _ => True

/-- Trace condition for the read-back property: every listed operation
    touches a key whose derived (bucket, fingerprint) pair differs from
    (b, f), and none invokes the relocation engine in the state where it
    runs. -/
def TraceOK (b f : Nat) (rnd : Nat → Nat) : List Op → Buckets → Prop
  | [], _ => True
  | op :: rest, s =>
      get_bucket_fingerprint (opKey op) ≠ (b, f) ∧ NoReloc s op ∧
        TraceOK b f rnd rest (applyOp rnd s op)

/-- Operation sequence of non-sharing keys used in the eviction scenario:
    key "k0" hashes to bucket 102463 with fingerprint 7201; the first
    three inserts fill that bucket, the next four fill bucket 57506, the
    primary bucket of "y962020", whose alternate bucket is 102463.
    Inserting "y962020" then relocates: with the slot-0 oracle it evicts
    the entry of "k0" and re-places it in bucket 74574, the alternate
    bucket of "k0", without flipping its selector bit. -/
def c4ops : List Op :=
  [.addOp "x2813190" (mkVal 2), .addOp "x2943376" (mkVal 3),
   .addOp "x4392121" (mkVal 4), .addOp "z1105498" (mkVal 5),
   .addOp "z1245698" (mkVal 6), .addOp "z1785098" (mkVal 7),
   .addOp "z1924858" (mkVal 8), .addOp "y962020" (mkVal 99)]

end PCF

/-
  Parameterized variant of src/rst2.cpp: only its constructor
  (lines 105 to 112) is modelled, for the construction-validation claim.
  The constructor initializes the fields, sets MAX_RELOCATIONS to 100,
  derives BUCKET_BITS as ceil(log2(num_buckets)), allocates num_buckets
  empty buckets and reserves their capacity; it performs no validation
  of any kind.
-/

namespace RST2

/-- Manager state of the parameterized UTXOManager of src/rst2.cpp. -/
structure UTXOManager where
  BUCKET_SIZE : Nat
  NUM_BUCKETS : Nat
  MAX_RELOCATIONS : Nat
  FINGERPRINT_BITS : Nat
  BUCKET_BITS : Nat
  buckets : List (List PCF.BucketEntry)
deriving Repr

/-- The UTXOManager constructor of src/rst2.cpp: member initialization
    only, ceil(log2 n) rendered as Nat.clog 2 n. -/
def mkUTXOManager (num_buckets bucket_size fingerprint_bits : Nat) :
    UTXOManager :=
  { BUCKET_SIZE := bucket_size
    NUM_BUCKETS := num_buckets
    MAX_RELOCATIONS := 100
    FINGERPRINT_BITS := fingerprint_bits
    BUCKET_BITS := Nat.clog 2 num_buckets
    buckets := List.replicate num_buckets [] }

/-- Modelled from the spec: the construction-time parameter validity
    condition of section 6 (NUM_BUCKETS a power of two > 0,
    BUCKET_SIZE > 0, FINGERPRINT_BITS > 0, BUCKET_BITS + FINGERPRINT_BITS
    at most 32).  No corresponding check exists in the source. -/
def specValidParams (num_buckets bucket_size fingerprint_bits : Nat) : Prop :=
  0 < num_buckets ∧ (∃ k, num_buckets = 2 ^ k) ∧ 0 < bucket_size ∧
    0 < fingerprint_bits ∧
    Nat.clog 2 num_buckets + fingerprint_bits ≤ 32

end RST2

namespace PCF

/-- An entry absent from every binding of the association list is absent
    from every bucket. -/
theorem not_mem_getB {e : BucketEntry} {s : Buckets}
    (h : ∀ p ∈ s, e ∉ p.2) : ∀ j, e ∉ getB s j := by
  intro j
  induction s with
  | nil => simp [getB]
  | cons hd tl ih =>
    simp only [getB]
    split
    · exact h hd (List.mem_cons_self hd tl)
    · exact ih fun p hp => h p (List.mem_cons_of_mem hd hp)

/-- Reading back after a write: the written bucket holds the new list,
    every other bucket is unchanged. -/
theorem getB_setB (s : Buckets) (i : Nat) (b : List BucketEntry) (j : Nat) :
    getB (setB s i b) j = if j = i then b else getB s j := by
  induction s with
  | nil =>
    simp [setB, getB]
  | cons hd tl ih =>
    obtain ⟨k, b0⟩ := hd
    simp only [setB]
    by_cases hik : i = k
    · subst hik
      simp only [if_pos rfl, getB]
      by_cases hji : j = i <;> simp [hji]
    · simp only [if_neg hik, getB]
      by_cases hjk : j = k
      · subst hjk
        have hji : ¬j = i := fun h => hik h.symm
        simp [hji]
      · simp [hjk, ih]

/-- The walk never performs more eviction steps than it has fuel. -/
theorem relocateSteps_le_fuel (rnd : Nat → Nat) :
    ∀ (fuel : Nat) (s : Buckets) (b f : Nat) (v : UTXOValue),
      relocateSteps rnd fuel s b f v ≤ fuel := by
  intro fuel
  induction fuel with
  | zero => intro s b f v; simp [relocateSteps]
  | succ n ih =>
    intro s b f v
    simp only [relocateSteps]
    split
    · exact Nat.zero_le _
    · split <;>
        (split
         · exact Nat.succ_le_succ (Nat.zero_le n)
         · exact Nat.succ_le_succ (ih _ _ _ _))

/-- Transferring contents bucket by bucket: writing bucket i replaces its
    contribution to the total entry count. -/
theorem count_setB (s : Buckets) (i : Nat) (b : List BucketEntry) :
    count (setB s i b) + (getB s i).length = count s + b.length := by
  induction s with
  | nil => simp [setB, getB, count]
  | cons hd tl ih =>
    obtain ⟨k, b0⟩ := hd
    by_cases hik : i = k
    · subst hik
      simp [setB, count, getB]
      omega
    · simp only [count] at ih
      simp [setB, count, getB, hik]
      omega

/-- A relocation walk that ends in failure has only overwritten occupied
    slots in place, so the total number of stored entries is unchanged. -/
theorem relocate_false_count (rnd : Nat → Nat) :
    ∀ (fuel : Nat) (s : Buckets) (b f : Nat) (v : UTXOValue) (s' : Buckets),
      relocate rnd fuel s b f v = (false, s') → count s' = count s := by
  intro fuel
  induction fuel with
  | zero =>
    intro s b f v s' h
    simp only [relocate, Prod.mk.injEq] at h
    rw [h.2]
  | succ n ih =>
    intro s b f v s' h
    simp only [relocate] at h
    split at h
    · exact absurd (congrArg Prod.fst h) (by simp)
    · split at h <;>
        (split at h
         · exact absurd (congrArg Prod.fst h) (by simp)
         · have hstep := ih _ _ _ _ _ h
           rw [hstep]
           have hc := count_setB s (get_alt_bucket b f)
             ((getB s (get_alt_bucket b f)).set
               (rnd (n + 1) % (getB s (get_alt_bucket b f)).length) ⟨f, true, v⟩)
           simp only [List.length_set] at hc
           omega)

/-- Removal of the first entry matching p shortens the bucket by one. -/
theorem removeFirst_length {p : BucketEntry → Bool} :
    ∀ (l l' : List BucketEntry), removeFirst p l = some l' →
      l'.length + 1 = l.length := by
  intro l
  induction l with
  | nil => intro l' h; exact absurd h (by simp [removeFirst])
  | cons e rest ih =>
    intro l' h
    simp only [removeFirst] at h
    split at h
    · cases h; simp
    · cases hm : removeFirst p rest with
      | none => rw [hm] at h; simp at h
      | some rest' =>
        rw [hm] at h
        simp only [Option.map_some'] at h
        cases h
        have := ih rest' hm
        simp [← this]

/-- A bucket with no entry matching p yields no removal. -/
theorem removeFirst_eq_none {p : BucketEntry → Bool} :
    ∀ l : List BucketEntry, l.any p = false → removeFirst p l = none := by
  intro l
  induction l with
  | nil => intro _; rfl
  | cons e rest ih =>
    intro h
    simp only [List.any_cons, Bool.or_eq_false_iff] at h
    simp [removeFirst, h.1, ih h.2]

/-- The relocation walk never grows a bucket beyond BUCKET_SIZE: direct
    placements are guarded by a room check and evictions overwrite one
    slot in place. -/
theorem relocate_len_le (rnd : Nat → Nat) :
    ∀ (fuel : Nat) (s : Buckets) (b f : Nat) (v : UTXOValue) (r : Bool)
      (s' : Buckets),
      relocate rnd fuel s b f v = (r, s') →
      (∀ i, (getB s i).length ≤ BUCKET_SIZE) →
      ∀ i, (getB s' i).length ≤ BUCKET_SIZE := by
  intro fuel
  induction fuel with
  | zero =>
    intro s b f v r s' h hlen
    simp only [relocate, Prod.mk.injEq] at h
    exact h.2 ▸ hlen
  | succ n ih =>
    intro s b f v r s' h hlen
    simp only [relocate] at h
    split at h
    · rename_i hroom
      simp only [Prod.mk.injEq] at h
      intro i
      rw [← h.2, getB_setB]
      split
      · simp only [List.length_append, List.length_cons, List.length_nil]
        omega
      · exact hlen i
    · split at h <;>
        (split at h
         · rename_i hnb
           simp only [Prod.mk.injEq] at h
           intro i
           rw [← h.2, getB_setB]
           split
           · simp only [List.length_append, List.length_cons, List.length_nil]
             omega
           · rw [getB_setB]
             split
             · rw [List.length_set]; exact hlen _
             · exact hlen i
         · exact ih _ _ _ _ _ _ h fun j => by
             rw [getB_setB]
             split
             · rw [List.length_set]; exact hlen _
             · exact hlen j)

/-- add_utxo never grows a bucket beyond BUCKET_SIZE. -/
theorem add_len_le (rnd : Nat → Nat) (k : String) (v : UTXOValue)
    (s : Buckets) (r : Bool) (s' : Buckets)
    (h : add_utxo rnd k v s = (r, s'))
    (hlen : ∀ i, (getB s i).length ≤ BUCKET_SIZE) :
    ∀ i, (getB s' i).length ≤ BUCKET_SIZE := by
  simp only [add_utxo] at h
  split at h
  · simp only [Prod.mk.injEq] at h; exact h.2 ▸ hlen
  · split at h
    · simp only [Prod.mk.injEq] at h; exact h.2 ▸ hlen
    · split at h
      · rename_i hroom
        simp only [Prod.mk.injEq] at h
        intro i
        rw [← h.2, getB_setB]
        split
        · simp only [List.length_append, List.length_cons, List.length_nil]
          omega
        · exact hlen i
      · split at h
        · rename_i hroom
          simp only [Prod.mk.injEq] at h
          intro i
          rw [← h.2, getB_setB]
          split
          · simp only [List.length_append, List.length_cons, List.length_nil]
            omega
          · exact hlen i
        · exact relocate_len_le rnd _ s _ _ v r s' h hlen

/-- remove_utxo never grows a bucket. -/
theorem remove_len_le (k : String) (s : Buckets) (r : Bool) (s' : Buckets)
    (h : remove_utxo k s = (r, s'))
    (hlen : ∀ i, (getB s i).length ≤ BUCKET_SIZE) :
    ∀ i, (getB s' i).length ≤ BUCKET_SIZE := by
  simp only [remove_utxo] at h
  split at h
  · rename_i l heq
    simp only [Prod.mk.injEq] at h
    intro i
    rw [← h.2, getB_setB]
    split
    · have := removeFirst_length _ _ heq
      have := hlen (get_bucket_fingerprint k).1
      omega
    · exact hlen i
  · split at h
    · rename_i l heq
      simp only [Prod.mk.injEq] at h
      intro i
      rw [← h.2, getB_setB]
      split
      · have := removeFirst_length _ _ heq
        have := hlen (get_alt_bucket (get_bucket_fingerprint k).1
          (get_bucket_fingerprint k).2)
        omega
      · exact hlen i
    · simp only [Prod.mk.injEq] at h; exact h.2 ▸ hlen

/-- Appending an entry the scan rejects does not change the scan result. -/
theorem find?_append_of_neg {p : BucketEntry → Bool} {e : BucketEntry}
    (h : p e = false) (l : List BucketEntry) :
    (l ++ [e]).find? p = l.find? p := by
  rw [List.find?_append, List.find?_cons_of_neg _ (by simp [h]),
    List.find?_nil, Option.or_none]

/-- Appending a matching entry to a bucket the scan rejects makes it the
    scan result. -/
theorem find?_append_of_pos {p : BucketEntry → Bool} {e : BucketEntry}
    {l : List BucketEntry} (hl : l.find? p = none) (he : p e = true) :
    (l ++ [e]).find? p = some e := by
  rw [List.find?_append, hl, List.find?_cons_of_pos _ he, Option.none_or]

/-- Erasing an entry the scan rejects does not change the scan result. -/
theorem find?_removeFirst {p q : BucketEntry → Bool}
    (hpq : ∀ x, q x = true → p x = false) :
    ∀ (l l' : List BucketEntry), removeFirst q l = some l' →
      l'.find? p = l.find? p := by
  intro l
  induction l with
  | nil => intro l' h; simp [removeFirst] at h
  | cons a rest ih =>
    intro l' h
    simp only [removeFirst] at h
    split at h
    · rename_i hqa
      cases h
      rw [List.find?_cons_of_neg _ (by simp [hpq a hqa])]
    · rename_i hqa
      cases hm : removeFirst q rest with
      | none => rw [hm] at h; simp at h
      | some rest' =>
        rw [hm] at h
        simp only [Option.map_some'] at h
        cases h
        by_cases hpa : p a = true
        · rw [List.find?_cons_of_pos _ hpa, List.find?_cons_of_pos _ hpa]
        · rw [List.find?_cons_of_neg _ (by simpa using hpa),
            List.find?_cons_of_neg _ (by simpa using hpa)]
          exact ih rest' hm

/-- Appending to one bucket an entry the two lookup scans both reject
    leaves the lookup result for (b, f) unchanged. -/
theorem get_fp_setB_append (s : Buckets) (b f j : Nat) (e : BucketEntry)
    (h1 : j = b → (e.fingerprint == f && e.selector_bit == false) = false)
    (h2 : j = get_alt_bucket b f →
      (e.fingerprint == f && e.selector_bit == true) = false) :
    get_fp (setB s j (getB s j ++ [e])) b f = get_fp s b f := by
  unfold get_fp
  rw [getB_setB, getB_setB]
  by_cases hb : b = j
  · subst hb
    rw [if_pos rfl, find?_append_of_neg (h1 rfl)]
    by_cases hA : get_alt_bucket b f = b
    · rw [if_pos hA, hA, find?_append_of_neg (h2 hA.symm)]
    · rw [if_neg hA]
  · rw [if_neg hb]
    by_cases hA : get_alt_bucket b f = j
    · rw [if_pos hA, hA, find?_append_of_neg (h2 hA.symm)]
    · rw [if_neg hA]

/-- Erasing from one bucket an entry the two lookup scans both reject
    leaves the lookup result for (b, f) unchanged. -/
theorem get_fp_setB_remove (s : Buckets) (b f j : Nat)
    (q : BucketEntry → Bool) (l' : List BucketEntry)
    (hq : removeFirst q (getB s j) = some l')
    (h1 : j = b → ∀ x, q x = true →
      (x.fingerprint == f && x.selector_bit == false) = false)
    (h2 : j = get_alt_bucket b f → ∀ x, q x = true →
      (x.fingerprint == f && x.selector_bit == true) = false) :
    get_fp (setB s j l') b f = get_fp s b f := by
  unfold get_fp
  rw [getB_setB, getB_setB]
  by_cases hb : b = j
  · subst hb
    rw [if_pos rfl, find?_removeFirst (h1 rfl) _ _ hq]
    by_cases hA : get_alt_bucket b f = b
    · rw [if_pos hA, hA, find?_removeFirst (h2 hA.symm) _ _ hq]
    · rw [if_neg hA]
  · rw [if_neg hb]
    by_cases hA : get_alt_bucket b f = j
    · rw [if_pos hA, hA, find?_removeFirst (h2 hA.symm) _ _ hq]
    · rw [if_neg hA]

/-- The alternate-bucket map is injective in its bucket argument. -/
theorem alt_inj {b1 b2 f : Nat}
    (h : get_alt_bucket b1 f = get_alt_bucket b2 f) : b1 = b2 := by
  have h2 := congrArg
    (fun x => x ^^^ (f * 0xCC9E2D51 % 2 ^ 32 &&& (2 ^ 19 - 1))) h
  simpa [get_alt_bucket, Nat.xor_cancel_right] using h2

/-- A key that does not share the pair (b, f) but hits bucket b carries
    a different fingerprint. -/
theorem pair_ne_fp {k : String} {b f : Nat}
    (hsh : get_bucket_fingerprint k ≠ (b, f))
    (hb : (get_bucket_fingerprint k).1 = b) :
    ((get_bucket_fingerprint k).2 == f) = false := by
  rw [beq_eq_false_iff_ne]
  intro hf
  exact hsh (Prod.ext_iff.mpr ⟨hb, hf⟩)

/-- An insert of a key that does not share (b, f) and does not invoke
    the relocation engine preserves the lookup result for (b, f). -/
theorem get_fp_add (rnd : Nat → Nat) (k : String) (v : UTXOValue)
    (s : Buckets) (b f : Nat) (w : UTXOValue)
    (hsh : get_bucket_fingerprint k ≠ (b, f))
    (hnr : NoReloc s (Op.addOp k v))
    (hinv : get_fp s b f = some w) :
    get_fp (add_utxo rnd k v s).2 b f = some w := by
  simp only [NoReloc] at hnr
  simp only [add_utxo]
  split
  · exact hinv
  · rename_i hd1
    split
    · exact hinv
    · rename_i hd2
      split
      · refine (get_fp_setB_append s b f _ _ ?_ ?_).trans hinv
        · intro hb
          simp [pair_ne_fp hsh hb]
        · intro _
          simp
      · rename_i hr1
        split
        · refine (get_fp_setB_append s b f _ _ ?_ ?_).trans hinv
          · intro _
            simp
          · intro hA
            by_cases hf : (get_bucket_fingerprint k).2 = f
            · exfalso
              rw [hf] at hA
              exact hsh (Prod.ext_iff.mpr ⟨alt_inj hA, hf⟩)
            · simp [hf]
        · rename_i hr2
          exfalso
          rcases hnr with hc | hc | hc | hc
          · exact hd1 hc
          · exact hd2 hc
          · exact hr1 hc
          · exact hr2 hc

/-- A removal for a key that does not share (b, f) preserves the lookup
    result for (b, f). -/
theorem get_fp_remove (k : String) (s : Buckets) (b f : Nat)
    (w : UTXOValue)
    (hsh : get_bucket_fingerprint k ≠ (b, f))
    (hinv : get_fp s b f = some w) :
    get_fp (remove_utxo k s).2 b f = some w := by
  simp only [remove_utxo]
  split
  · rename_i l heq
    refine (get_fp_setB_remove s b f _ _ l heq ?_ ?_).trans hinv
    · intro hb x hqx
      simp only [Bool.and_eq_true, beq_iff_eq] at hqx
      simp [hqx.1, hqx.2, pair_ne_fp hsh hb]
    · intro _ x hqx
      simp only [Bool.and_eq_true, beq_iff_eq] at hqx
      simp [hqx.2]
  · split
    · rename_i l heq
      refine (get_fp_setB_remove s b f _ _ l heq ?_ ?_).trans hinv
      · intro _ x hqx
        simp only [Bool.and_eq_true, beq_iff_eq] at hqx
        simp [hqx.2]
      · intro hA x hqx
        simp only [Bool.and_eq_true, beq_iff_eq] at hqx
        by_cases hf : (get_bucket_fingerprint k).2 = f
        · exfalso
          rw [hf] at hA
          exact hsh (Prod.ext_iff.mpr ⟨alt_inj hA, hf⟩)
        · simp [hqx.1, hf]
    · exact hinv

/-- A successful insert that found room in one of its two buckets leaves
    its key immediately readable at its derived (bucket, fingerprint). -/
theorem get_fp_established (rnd : Nat → Nat) (k : String) (v : UTXOValue)
    (s : Buckets)
    (hroom : (getB s (get_bucket_fingerprint k).1).length < BUCKET_SIZE ∨
      (getB s (get_alt_bucket (get_bucket_fingerprint k).1
        (get_bucket_fingerprint k).2)).length < BUCKET_SIZE)
    (hsucc : (add_utxo rnd k v s).1 = true) :
    get_fp (add_utxo rnd k v s).2 (get_bucket_fingerprint k).1
      (get_bucket_fingerprint k).2 = some v := by
  by_cases hd1 : (getB s (get_bucket_fingerprint k).1).any
      (fun e => e.fingerprint == (get_bucket_fingerprint k).2 &&
        e.selector_bit == false) = true
  · refine absurd hsucc ?_
    simp only [add_utxo]
    rw [if_pos hd1]
    simp
  · by_cases hd2 : (getB s (get_alt_bucket (get_bucket_fingerprint k).1
        (get_bucket_fingerprint k).2)).any
        (fun e => e.fingerprint == (get_bucket_fingerprint k).2 &&
          e.selector_bit == true) = true
    · refine absurd hsucc ?_
      simp only [add_utxo]
      rw [if_neg hd1, if_pos hd2]
      simp
    · have hd1f := (Bool.not_eq_true _) ▸ hd1
      have hd2f := (Bool.not_eq_true _) ▸ hd2
      by_cases hr1 : (getB s (get_bucket_fingerprint k).1).length < BUCKET_SIZE
      · have hstate : add_utxo rnd k v s =
            (true, setB s (get_bucket_fingerprint k).1
              (getB s (get_bucket_fingerprint k).1 ++
                [⟨(get_bucket_fingerprint k).2, false, v⟩])) := by
          simp only [add_utxo]
          rw [if_neg hd1, if_neg hd2, if_pos hr1]
        rw [hstate]
        unfold get_fp
        rw [getB_setB, if_pos rfl,
          find?_append_of_pos (List.find?_eq_none.mpr (List.any_eq_false.mp hd1f))
            (by simp)]
      · by_cases hr2 : (getB s (get_alt_bucket (get_bucket_fingerprint k).1
            (get_bucket_fingerprint k).2)).length < BUCKET_SIZE
        · have hstate : add_utxo rnd k v s =
              (true, setB s (get_alt_bucket (get_bucket_fingerprint k).1
                  (get_bucket_fingerprint k).2)
                (getB s (get_alt_bucket (get_bucket_fingerprint k).1
                  (get_bucket_fingerprint k).2) ++
                  [⟨(get_bucket_fingerprint k).2, true, v⟩])) := by
            simp only [add_utxo]
            rw [if_neg hd1, if_neg hd2, if_neg hr1, if_pos hr2]
          rw [hstate]
          unfold get_fp
          rw [getB_setB]
          by_cases hba : (get_bucket_fingerprint k).1 =
              get_alt_bucket (get_bucket_fingerprint k).1
                (get_bucket_fingerprint k).2
          · exfalso
            rw [hba] at hr1
            exact hr1 hr2
          · rw [if_neg hba,
              List.find?_eq_none.mpr (List.any_eq_false.mp hd1f),
              getB_setB, if_pos rfl,
              find?_append_of_pos
                (List.find?_eq_none.mpr (List.any_eq_false.mp hd2f)) (by simp)]
        · exfalso
          rcases hroom with hc | hc
          · exact hr1 hc
          · exact hr2 hc

/-- Lookup preservation along a whole relocation-free non-sharing trace. -/
theorem get_fp_trace (rnd : Nat → Nat) (b f : Nat) (w : UTXOValue) :
    ∀ (ops : List Op) (s : Buckets), TraceOK b f rnd ops s →
      get_fp s b f = some w →
      get_fp (applyOps rnd ops s) b f = some w := by
  intro ops
  induction ops with
  | nil =>
    intro s _ h
    simpa [applyOps] using h
  | cons op rest ih =>
    intro s htr hinv
    simp only [TraceOK] at htr
    obtain ⟨hsh, hnr, hrest⟩ := htr
    rw [applyOps, List.foldl_cons]
    refine ih _ hrest ?_
    cases op with
    | addOp k v => exact get_fp_add rnd k v s b f w hsh hnr hinv
    | removeOp k => exact get_fp_remove k s b f w hsh hinv

/-- Any operation sequence applied to a reachable state lands in a
    reachable state. -/
theorem reachable_applyOps (rnd : Nat → Nat) :
    ∀ (ops : List Op) (s : Buckets), Reachable s →
      Reachable (applyOps rnd ops s) := by
  intro ops
  induction ops with
  | nil => intro s h; simpa [applyOps] using h
  | cons op rest ih =>
    intro s h
    rw [applyOps, List.foldl_cons]
    apply ih
    cases op with
    | addOp k v => exact Reachable.add rnd k v s h
    | removeOp k => exact Reachable.remove k s h

end PCF

/-- C1: the alternate-bucket map is involutive and stays in range: for
    b < NUM_BUCKETS and f < 2^FINGERPRINT_BITS,
    get_alt_bucket (get_alt_bucket b f) f = b and
    get_alt_bucket b f < NUM_BUCKETS. -/
theorem alt_bucket_involutive (b f : Nat)
    (hb : b < PCF.NUM_BUCKETS) (_hf : f < 2 ^ PCF.FINGERPRINT_BITS) :
    PCF.get_alt_bucket (PCF.get_alt_bucket b f) f = b ∧
      PCF.get_alt_bucket b f < PCF.NUM_BUCKETS := by
  unfold PCF.get_alt_bucket PCF.NUM_BUCKETS at *
  constructor
  · exact Nat.xor_cancel_right _ b
  · have hm : f * 0xCC9E2D51 % 2 ^ 32 &&& (2 ^ 19 - 1) < 2 ^ 19 := by
      rw [Nat.and_pow_two_sub_one_eq_mod]
      exact Nat.mod_lt _ (by norm_num)
    exact Nat.xor_lt_two_pow hb hm

/-- Witness for C1 at b = 5, f = 3. -/
theorem alt_bucket_involutive_witness :
    5 < PCF.NUM_BUCKETS ∧ 3 < 2 ^ PCF.FINGERPRINT_BITS ∧
      (PCF.get_alt_bucket (PCF.get_alt_bucket 5 3) 3 = 5 ∧
        PCF.get_alt_bucket 5 3 < PCF.NUM_BUCKETS) :=
  ⟨by decide, by decide, alt_bucket_involutive 5 3 (by decide) (by decide)⟩

set_option maxRecDepth 8000 in
/-- C2: the entry-location invariant is violated by the relocation walk.
    The state below is reachable from the empty table by add_utxo calls
    alone; key "k0" derives (bucket, fingerprint) = (102463, 7201), its
    alternate bucket is 74574, yet after the final insert the entry
    created for "k0" (fingerprint 7201, value of height 1) sits in bucket
    74574 with selector_bit = false: an entry at its alternate bucket
    whose selector claims the primary, so lookup of "k0" fails. -/
theorem entry_location_invariant_violated :
    PCF.Reachable (PCF.applyOps PCF.rnd0 PCF.c4ops
      (PCF.add_utxo PCF.rnd0 "k0" (PCF.mkVal 1) []).2) ∧
    PCF.get_bucket_fingerprint "k0" = (102463, 7201) ∧
    PCF.get_alt_bucket 102463 7201 = 74574 ∧
    (⟨7201, false, PCF.mkVal 1⟩ : PCF.BucketEntry) ∈
      PCF.getB (PCF.applyOps PCF.rnd0 PCF.c4ops
        (PCF.add_utxo PCF.rnd0 "k0" (PCF.mkVal 1) []).2) 74574 ∧
    (74574 : Nat) ≠ 102463 ∧
    PCF.get_utxo "k0" (PCF.applyOps PCF.rnd0 PCF.c4ops
      (PCF.add_utxo PCF.rnd0 "k0" (PCF.mkVal 1) []).2) = none :=
  ⟨PCF.reachable_applyOps PCF.rnd0 PCF.c4ops _
      (PCF.Reachable.add _ _ _ _ PCF.Reachable.empty),
   by decide, by decide, by decide, by decide, by decide⟩

set_option maxRecDepth 4000 in
/-- C3: failed inserts are not atomic.  There are a table state, a key and
    a value for which add_utxo returns failure after exhausting the
    relocation depth bound, yet the state after the call differs from the
    state before it, and an entry stored before the call has disappeared
    from every bucket. -/
theorem failed_insert_not_atomic :
    ∃ (s s' : PCF.Buckets) (key : String) (v : PCF.UTXOValue)
      (rnd : Nat → Nat) (e : PCF.BucketEntry) (i : Nat),
      PCF.add_utxo rnd key v s = (false, s') ∧
      s' ≠ s ∧
      e ∈ PCF.getB s i ∧
      ∀ j, e ∉ PCF.getB s' j :=
  ⟨PCF.s3, PCF.s3f, "a", PCF.mkVal 7, PCF.rnd0, ⟨1, true, PCF.mkVal 20⟩, 372661,
    by decide, by decide, by decide, PCF.not_mem_getB (by decide)⟩

/-- C4 (amended): post-insert read-back holds when the insert of k found
    room in its primary or alternate bucket and every subsequent
    operation touches a key with a different derived (bucket,
    fingerprint) pair and never invokes the relocation engine: get_utxo
    then still returns the inserted value. -/
theorem post_insert_readback (rnd : Nat → Nat) (k : String)
    (v : PCF.UTXOValue) (s : PCF.Buckets) (ops : List PCF.Op)
    (hroom : (PCF.getB s (PCF.get_bucket_fingerprint k).1).length <
        PCF.BUCKET_SIZE ∨
      (PCF.getB s (PCF.get_alt_bucket (PCF.get_bucket_fingerprint k).1
        (PCF.get_bucket_fingerprint k).2)).length < PCF.BUCKET_SIZE)
    (hsucc : (PCF.add_utxo rnd k v s).1 = true)
    (htr : PCF.TraceOK (PCF.get_bucket_fingerprint k).1
      (PCF.get_bucket_fingerprint k).2 rnd ops (PCF.add_utxo rnd k v s).2) :
    PCF.get_utxo k (PCF.applyOps rnd ops (PCF.add_utxo rnd k v s).2) =
      some v := by
  have h0 := PCF.get_fp_established rnd k v s hroom hsucc
  have h1 := PCF.get_fp_trace rnd (PCF.get_bucket_fingerprint k).1
    (PCF.get_bucket_fingerprint k).2 v ops _ htr h0
  simpa [PCF.get_utxo] using h1

set_option maxRecDepth 4000 in
/-- Witness for C4 with one intervening non-sharing insert. -/
theorem post_insert_readback_witness :
    ((PCF.getB ([] : PCF.Buckets)
        (PCF.get_bucket_fingerprint "a").1).length < PCF.BUCKET_SIZE ∨
      (PCF.getB ([] : PCF.Buckets)
        (PCF.get_alt_bucket (PCF.get_bucket_fingerprint "a").1
          (PCF.get_bucket_fingerprint "a").2)).length < PCF.BUCKET_SIZE) ∧
    (PCF.add_utxo PCF.rnd0 "a" (PCF.mkVal 5) []).1 = true ∧
    PCF.TraceOK (PCF.get_bucket_fingerprint "a").1
      (PCF.get_bucket_fingerprint "a").2 PCF.rnd0
      [PCF.Op.addOp "b" (PCF.mkVal 6)]
      (PCF.add_utxo PCF.rnd0 "a" (PCF.mkVal 5) []).2 ∧
    PCF.get_utxo "a" (PCF.applyOps PCF.rnd0 [PCF.Op.addOp "b" (PCF.mkVal 6)]
      (PCF.add_utxo PCF.rnd0 "a" (PCF.mkVal 5) []).2) = some (PCF.mkVal 5) :=
  ⟨Or.inl (by decide), by decide,
   ⟨by decide, Or.inr (Or.inr (Or.inl (by decide))), trivial⟩,
   post_insert_readback PCF.rnd0 "a" (PCF.mkVal 5) [] _ (Or.inl (by decide))
     (by decide)
     ⟨by decide, Or.inr (Or.inr (Or.inl (by decide))), trivial⟩⟩

set_option maxRecDepth 8000 in
/-- Counterexample to C4 as stated: "k0" is inserted successfully into
    the empty table, every subsequent operation touches a key with a
    different derived (bucket, fingerprint) pair, yet after the sequence
    get_utxo on "k0" no longer returns its value: the final insert
    relocated the entry of "k0" into its alternate bucket while leaving
    its selector bit at false, where neither lookup scan matches it. -/
theorem post_insert_readback_counterexample :
    (PCF.add_utxo PCF.rnd0 "k0" (PCF.mkVal 1) []).1 = true ∧
    (∀ op ∈ PCF.c4ops, PCF.get_bucket_fingerprint (PCF.opKey op) ≠
      PCF.get_bucket_fingerprint "k0") ∧
    PCF.get_utxo "k0" (PCF.applyOps PCF.rnd0 PCF.c4ops
      (PCF.add_utxo PCF.rnd0 "k0" (PCF.mkVal 1) []).2) ≠
      some (PCF.mkVal 1) := by
  refine ⟨by decide, ?_, by decide⟩
  decide

/-- C5: fingerprint-collision false positive with value substitution.
    For distinct keys agreeing on the derived (bucket, fingerprint)
    pair, inserting the first into the empty table succeeds and lookup
    of the second, never-inserted key returns the value stored for the
    first. -/
theorem collision_false_positive (rnd : Nat → Nat) (k1 k2 : String)
    (v1 : PCF.UTXOValue)
    (hcol : PCF.get_bucket_fingerprint k1 = PCF.get_bucket_fingerprint k2)
    (_hne : k1 ≠ k2) :
    (PCF.add_utxo rnd k1 v1 []).1 = true ∧
      PCF.get_utxo k2 (PCF.add_utxo rnd k1 v1 []).2 = some v1 := by
  have hg : PCF.add_utxo rnd k1 v1 [] =
      (true, [((PCF.get_bucket_fingerprint k1).1,
        [⟨(PCF.get_bucket_fingerprint k1).2, false, v1⟩])]) := by
    simp [PCF.add_utxo, PCF.getB, PCF.setB, PCF.BUCKET_SIZE]
  refine ⟨by rw [hg], ?_⟩
  rw [hg]
  simp only [PCF.get_utxo, ← hcol]
  unfold PCF.get_fp
  simp [PCF.getB]

set_option maxRecDepth 4000 in
/-- Witness for C5 at the colliding pair "plumless" / "buckeroo". -/
theorem collision_false_positive_witness :
    PCF.get_bucket_fingerprint "plumless" =
        PCF.get_bucket_fingerprint "buckeroo" ∧
      "plumless" ≠ "buckeroo" ∧
      ((PCF.add_utxo PCF.rnd0 "plumless" (PCF.mkVal 1) []).1 = true ∧
        PCF.get_utxo "buckeroo"
          (PCF.add_utxo PCF.rnd0 "plumless" (PCF.mkVal 1) []).2 =
          some (PCF.mkVal 1)) :=
  ⟨by decide, by decide,
   collision_false_positive PCF.rnd0 "plumless" "buckeroo" (PCF.mkVal 1)
     (by decide) (by decide)⟩

/-- C6: the relocation walk terminates on every input.  Every add_utxo
    call performs at most MAX_RELOCATIONS + 1 eviction steps (its walk
    starts with that much fuel, one unit per recursion depth), and a walk
    whose depth budget is exhausted fails immediately without touching
    the table. -/
theorem relocation_walk_terminates (rnd : Nat → Nat) (key : String)
    (v : PCF.UTXOValue) (s : PCF.Buckets) :
    PCF.add_utxo_steps rnd key v s ≤ PCF.MAX_RELOCATIONS + 1 ∧
      ∀ b f, PCF.relocate rnd 0 s b f v = (false, s) := by
  constructor
  · simp only [PCF.add_utxo_steps]
    split
    · exact Nat.zero_le _
    · split
      · exact Nat.zero_le _
      · split
        · exact Nat.zero_le _
        · split
          · exact Nat.zero_le _
          · exact PCF.relocateSteps_le_fuel rnd _ s _ _ v
  · intro b f
    simp [PCF.relocate]

/-- C7: capacity bound.  In every table state reachable from the empty
    table by add_utxo / remove_utxo calls, no bucket holds more than
    BUCKET_SIZE entries. -/
theorem capacity_bound (s : PCF.Buckets) (h : PCF.Reachable s) :
    ∀ i, (PCF.getB s i).length ≤ PCF.BUCKET_SIZE := by
  induction h with
  | empty => intro i; simp [PCF.getB]
  | add rnd k v s hs ih => exact PCF.add_len_le rnd k v s _ _ rfl ih
  | remove k s hs ih => exact PCF.remove_len_le k s _ _ rfl ih

/-- Witness for C7 on the reachable state holding one inserted key. -/
theorem capacity_bound_witness :
    PCF.Reachable (PCF.add_utxo PCF.rnd0 "a" (PCF.mkVal 1) []).2 ∧
      (PCF.getB (PCF.add_utxo PCF.rnd0 "a" (PCF.mkVal 1) []).2 507459).length ≤
        PCF.BUCKET_SIZE :=
  ⟨PCF.Reachable.add _ _ _ _ PCF.Reachable.empty,
   capacity_bound _ (PCF.Reachable.add _ _ _ _ PCF.Reachable.empty) 507459⟩

/-- C8 (amended): construction performs no parameter validation; for
    every parameter combination, valid or not, it succeeds and allocates
    exactly num_buckets empty buckets, with the relocation bound fixed
    at 100. -/
theorem construction_always_allocates (nb bs fb : Nat) :
    (RST2.mkUTXOManager nb bs fb).buckets.length = nb ∧
      (RST2.mkUTXOManager nb bs fb).buckets.all List.isEmpty = true ∧
      (RST2.mkUTXOManager nb bs fb).MAX_RELOCATIONS = 100 ∧
      (RST2.mkUTXOManager nb bs fb).BUCKET_SIZE = bs ∧
      (RST2.mkUTXOManager nb bs fb).FINGERPRINT_BITS = fb := by
  refine ⟨?_, ?_, rfl, rfl, rfl⟩
  · simp [RST2.mkUTXOManager]
  · simp [RST2.mkUTXOManager, List.all_eq_true]

/-- Counterexample to C8 as stated: num_buckets = 3 is not a power of
    two, so the spec demands a fatal error before any bucket storage is
    allocated, yet the constructor returns normally having allocated 3
    buckets. -/
theorem construction_no_validation_counterexample :
    ¬ RST2.specValidParams 3 4 13 ∧
      (RST2.mkUTXOManager 3 4 13).buckets.length = 3 := by
  constructor
  · rintro ⟨-, ⟨k, hk⟩, -⟩
    match k, hk with
    | 0, hk => simp at hk
    | 1, hk => simp at hk
    | (n + 2), hk =>
      have h4 : 4 ≤ 2 ^ (n + 2) := by
        calc (4 : Nat) = 2 ^ 2 := by norm_num
        _ ≤ 2 ^ (n + 2) := Nat.pow_le_pow_right (by norm_num) (by omega)
      omega
  · simp [RST2.mkUTXOManager]

/-- C9 (amended): remove on a key whose (fingerprint, selector) pattern
    matches no stored entry in its two candidate buckets returns false
    and leaves the table state, hence count, unchanged. -/
theorem remove_absent_is_noop (key : String) (s : PCF.Buckets)
    (h1 : (PCF.getB s (PCF.get_bucket_fingerprint key).1).any
        (fun e => e.fingerprint == (PCF.get_bucket_fingerprint key).2 &&
          e.selector_bit == false) = false)
    (h2 : (PCF.getB s (PCF.get_alt_bucket (PCF.get_bucket_fingerprint key).1
          (PCF.get_bucket_fingerprint key).2)).any
        (fun e => e.fingerprint == (PCF.get_bucket_fingerprint key).2 &&
          e.selector_bit == true) = false) :
    PCF.remove_utxo key s = (false, s) ∧
      PCF.count (PCF.remove_utxo key s).2 = PCF.count s := by
  have heq : PCF.remove_utxo key s = (false, s) := by
    simp only [PCF.remove_utxo, PCF.removeFirst_eq_none _ h1,
      PCF.removeFirst_eq_none _ h2]
  exact ⟨heq, by rw [heq]⟩

/-- Witness for C9 on the empty table. -/
theorem remove_absent_is_noop_witness :
    ((PCF.getB ([] : PCF.Buckets) (PCF.get_bucket_fingerprint "a").1).any
        (fun e => e.fingerprint == (PCF.get_bucket_fingerprint "a").2 &&
          e.selector_bit == false) = false) ∧
      PCF.remove_utxo "a" ([] : PCF.Buckets) = (false, []) :=
  ⟨by decide,
   (remove_absent_is_noop "a" [] (by decide) (by decide)).1⟩

set_option maxRecDepth 4000 in
/-- Counterexample to C9 as stated: "buckeroo" was never inserted (the
    only insert is "plumless", a different key with the same CRC32
    digest), yet remove_utxo on it returns true and count decreases. -/
theorem remove_absent_counterexample :
    PCF.crc32_hash "buckeroo" = PCF.crc32_hash "plumless" ∧
      "buckeroo" ≠ "plumless" ∧
      (PCF.add_utxo PCF.rnd0 "plumless" (PCF.mkVal 1) []).1 = true ∧
      (PCF.remove_utxo "buckeroo"
          (PCF.add_utxo PCF.rnd0 "plumless" (PCF.mkVal 1) []).2).1 = true ∧
      PCF.count (PCF.remove_utxo "buckeroo"
          (PCF.add_utxo PCF.rnd0 "plumless" (PCF.mkVal 1) []).2).2 ≠
        PCF.count (PCF.add_utxo PCF.rnd0 "plumless" (PCF.mkVal 1) []).2 := by
  decide

/-- C10: a failed insert never changes the number of stored entries:
    both duplicate rejections leave the state untouched, and a failing
    relocation walk only overwrites occupied slots in place. -/
theorem failed_insert_preserves_count (rnd : Nat → Nat) (k : String)
    (v : PCF.UTXOValue) (s s' : PCF.Buckets)
    (h : PCF.add_utxo rnd k v s = (false, s')) :
    PCF.count s' = PCF.count s := by
  simp only [PCF.add_utxo] at h
  split at h
  · simp only [Prod.mk.injEq] at h; rw [h.2]
  · split at h
    · simp only [Prod.mk.injEq] at h; rw [h.2]
    · split at h
      · exact absurd (congrArg Prod.fst h) (by simp)
      · split at h
        · exact absurd (congrArg Prod.fst h) (by simp)
        · exact PCF.relocate_false_count rnd _ s _ _ v s' h

set_option maxRecDepth 4000 in
/-- Witness for C10 at the concrete failing insert of s3. -/
theorem failed_insert_preserves_count_witness :
    PCF.add_utxo PCF.rnd0 "a" (PCF.mkVal 7) PCF.s3 = (false, PCF.s3f) ∧
      PCF.count PCF.s3f = PCF.count PCF.s3 :=
  ⟨by decide,
   failed_insert_preserves_count PCF.rnd0 "a" (PCF.mkVal 7) PCF.s3 PCF.s3f
     (by decide)⟩
